import Mathlib

/-!
# Category controller

A shallow embedding of `src/modules/category/controllers/CategoryController.js`.

The five handlers (`addCategory`, `getCategories`, `getCategory`, `updateCategory`,
`deleteCategory`) are translated statement by statement.  Their collaborators
(`validateCategory`, `uploadImage` and the `Category` model) are imported from other
modules, so the handlers take them as a record `Env` of functions over an explicit
state; `memEnv` is an in-memory category store written from the specification.

An `async` handler either writes one response (`Outcome.responded`) or its promise
rejects with the failure that escaped it (`Outcome.rejected`).
-/

namespace CategoryController

/-! ## Data model -/

/-- A thrown or rejected JavaScript error; only `e.message` is ever read. -/
structure Failure where
  message : String
deriving DecidableEq

/-- One entry of `error.details`. -/
structure Detail where
  message : String
deriving DecidableEq

/-- The `error` object returned by `validateCategory`.  Its `details` array is
`first :: rest`, so `error.details[0]` is `first`. -/
structure ValidationError where
  first : Detail
  rest : List Detail
deriving DecidableEq

/-- An uploaded file handle (`req.files.image`). -/
structure File where
  filename : String
deriving DecidableEq

/-- The object `req.files`; `image` is `undefined` when no such field was sent. -/
structure Files where
  image : Option File
deriving DecidableEq

/-- The object `req.body`: the `name` field (possibly absent) and the other fields. -/
structure ReqBody where
  name : Option String
  others : List (String × String)
deriving DecidableEq

/-- The object `req.params`. -/
structure Params where
  id : Nat
deriving DecidableEq

/-- The part of the express request the handlers read.  `files` is `none` when
`req.files` is undefined. -/
structure Request where
  body : ReqBody
  files : Option Files
  params : Params
deriving DecidableEq

/-- A row of the category table. -/
structure Category where
  id : Nat
  name : String
  image : String
deriving DecidableEq

/-- The associations a query can join (`include: Type`, `include: Product`). -/
inductive Join where
  | types
  | products
deriving DecidableEq

/-- A model instance returned by a query: the row, and the joined association rows when
the query had an `include`. -/
structure Instance where
  row : Category
  joined : Option (List String)
deriving DecidableEq

/-- The result object of `findAndCountAll`. -/
structure CountAll where
  count : Nat
  rows : List Instance
deriving DecidableEq

/-- The value under the second key of a JSON object response. -/
inductive Payload where
  | msg (m : String)
  | category (c : Instance)
  | categories (c : CountAll)
  | updatedCategory (c : Instance)
deriving DecidableEq

/-- A response body: `res.json(<string>)`, `res.json({error, ...})` or `res.send(<text>)`. -/
inductive ResBody where
  | jsonString (s : String)
  | jsonObject (error : Bool) (payload : Payload)
  | text (s : String)
deriving DecidableEq

/-- What `res.status(code).json(body)` writes. -/
structure Response where
  status : Nat
  body : ResBody
deriving DecidableEq

/-- The result of running a handler: the response it wrote together with the lines it
sent to `console.error`, or the failure its promise rejected with. -/
inductive Outcome where
  | responded (res : Response) (console : List String)
  | rejected (e : Failure)
deriving DecidableEq

/-- The collaborators imported by the controller, over a state `σ`.  Every call returns
either a value or a thrown failure, together with the state it leaves. -/
structure Env (σ : Type) where
  /-- The call `validateCategory(req.body)`, destructured as `{error}`. -/
  validateCategory : ReqBody → Except Failure (Option ValidationError)
  /-- The call `uploadImage(req.files.image)`. -/
  uploadImage : Option File → σ → Except Failure String × σ
  /-- The call `Category.findOne({where: {name}})`. -/
  findOne : Option String → σ → Except Failure (Option Instance) × σ
  /-- The call `Category.create({name, image})`. -/
  create : Option String → String → σ → Except Failure Instance × σ
  /-- The call `Category.findAndCountAll({include})`. -/
  findAndCountAll : Join → σ → Except Failure (Option CountAll) × σ
  /-- The call `Category.findByPk(id, {include})`, or `Category.findByPk(id)`. -/
  findByPk : Nat → Option Join → σ → Except Failure (Option Instance) × σ
  /-- The call `category.update({name, image})`. -/
  update : Instance → Option String → String → σ → Except Failure Instance × σ
  /-- The call `category.destroy({force})`. -/
  destroy : Instance → Bool → σ → Except Failure Unit × σ

/-! ## The handlers -/

/-- The `TypeError` raised by `req.files.image` when `req.files` is undefined. -/
def filesUndefined : Failure :=
  ⟨"Cannot read properties of undefined (reading image)"⟩

/-- The `catch (e)` block shared by the five handlers. -/
def caught (e : Failure) : Outcome :=
  .responded ⟨500, .text "Internal server error..."⟩ [e.message]

/-- The 404 response of `getCategory`, `updateCategory` and `deleteCategory`. -/
def notFound : Response :=
  ⟨404, .jsonObject true (.msg "Category not found")⟩

/-- The duplicate-name response of `addCategory`. -/
def alreadyExist : Response :=
  ⟨400, .jsonObject true (.msg "Category already exist")⟩

/-- `CategoryController.addCategory` (lines 18-50). -/
def addCategory {σ : Type} (env : Env σ) (req : Request) (s : σ) : Outcome × σ :=
  match env.validateCategory req.body with
  | .error e => (.rejected e, s)
  | .ok (some error) => (.responded ⟨400, .jsonString error.first.message⟩ [], s)
  | .ok none =>
    match req.files with
    | none => (.rejected filesUndefined, s)
    | some files =>
      match env.uploadImage files.image s with
      | (.error e, s1) => (.rejected e, s1)
      | (.ok image, s1) =>
        let name := req.body.name
        match env.findOne name s1 with
        | (.error e, s2) => (caught e, s2)
        | (.ok (some _), s2) => (.responded alreadyExist [], s2)
        | (.ok none, s2) =>
          match env.create name image s2 with
          | (.error e, s3) => (caught e, s3)
          | (.ok category, s3) =>
            (.responded ⟨200, .jsonObject false (.category category)⟩ [], s3)

/-- `CategoryController.getCategories` (lines 59-79). -/
def getCategories {σ : Type} (env : Env σ) (_req : Request) (s : σ) : Outcome × σ :=
  match env.findAndCountAll .types s with
  | (.error e, s1) => (caught e, s1)
  | (.ok none, s1) =>
    (.responded ⟨404, .jsonObject true (.msg "No category found")⟩ [], s1)
  | (.ok (some categories), s1) =>
    (.responded ⟨200, .jsonObject false (.categories categories)⟩ [], s1)

/-- `CategoryController.getCategory` (lines 88-108). -/
def getCategory {σ : Type} (env : Env σ) (req : Request) (s : σ) : Outcome × σ :=
  let id := req.params.id
  match env.findByPk id (some .products) s with
  | (.error e, s1) => (caught e, s1)
  | (.ok none, s1) => (.responded notFound [], s1)
  | (.ok (some category), s1) =>
    (.responded ⟨200, .jsonObject false (.category category)⟩ [], s1)

/-- `CategoryController.updateCategory` (lines 117-142). -/
def updateCategory {σ : Type} (env : Env σ) (req : Request) (s : σ) : Outcome × σ :=
  match env.validateCategory req.body with
  | .error e => (.rejected e, s)
  | .ok (some error) => (.responded ⟨400, .jsonString error.first.message⟩ [], s)
  | .ok none =>
    match req.files with
    | none => (.rejected filesUndefined, s)
    | some files =>
      match env.uploadImage files.image s with
      | (.error e, s1) => (.rejected e, s1)
      | (.ok image, s1) =>
        let name := req.body.name
        let id := req.params.id
        match env.findByPk id none s1 with
        | (.error e, s2) => (caught e, s2)
        | (.ok none, s2) => (.responded notFound [], s2)
        | (.ok (some category), s2) =>
          match env.update category name image s2 with
          | (.error e, s3) => (caught e, s3)
          | (.ok updatedCategory, s3) =>
            (.responded ⟨200, .jsonObject false (.updatedCategory updatedCategory)⟩ [], s3)

/-- `CategoryController.deleteCategory` (lines 151-171). -/
def deleteCategory {σ : Type} (env : Env σ) (req : Request) (s : σ) : Outcome × σ :=
  let id := req.params.id
  match env.findByPk id none s with
  | (.error e, s1) => (caught e, s1)
  | (.ok none, s1) => (.responded notFound [], s1)
  | (.ok (some category), s1) =>
    match env.destroy category true s1 with
    | (.error e, s2) => (caught e, s2)
    | (.ok _, s2) =>
      (.responded ⟨200, .jsonObject false (.msg "Category deleted successfully")⟩ [], s2)

/-! ## An in-memory category store -/

/-- The state behind the collaborators: the category table, the id the store hands out
next, and the references held by the image store. -/
structure World where
  categories : List Category
  nextId : Nat
  images : List String
deriving DecidableEq

/-- Modelled from the spec: the `Category` model is declared in `database/models`, which
is not part of the sources.  A category has a `name` (a string), so a store call that is
given no name fails. -/
def requireName : Option String → Except Failure String
  | some n => .ok n
  | none => .error ⟨"category name is undefined"⟩

/-- Modelled from the spec: CategoryStore `findOne(by name)`, an exact match on `name`. -/
def World.findOne (name : Option String) (w : World) : Except Failure (Option Instance) × World :=
  match requireName name with
  | .error e => (.error e, w)
  | .ok n => (.ok ((w.categories.find? (fun c => c.name == n)).map (fun c => ⟨c, none⟩)), w)

/-- Modelled from the spec: CategoryStore `create(name, image)`; the `id` is generated by
the store on creation. -/
def World.create (name : Option String) (image : String) (w : World) :
    Except Failure Instance × World :=
  match requireName name with
  | .error e => (.error e, w)
  | .ok n =>
    let c : Category := ⟨w.nextId, n, image⟩
    (.ok ⟨c, none⟩, { w with categories := w.categories ++ [c], nextId := w.nextId + 1 })

/-- Modelled from the spec: CategoryStore `findAndCountAll(joined)`; `joined j id` are the
association rows of kind `j` of the category `id`.  The fetch always yields a result
object. -/
def World.findAndCountAll (joined : Join → Nat → List String) (j : Join) (w : World) :
    Except Failure (Option CountAll) × World :=
  (.ok (some ⟨w.categories.length,
    w.categories.map (fun c => ⟨c, some (joined j c.id)⟩)⟩), w)

/-- Modelled from the spec: CategoryStore `findByPk(id, joined)`, a look up by `id`. -/
def World.findByPk (joined : Join → Nat → List String) (id : Nat) (j : Option Join) (w : World) :
    Except Failure (Option Instance) × World :=
  (.ok ((w.categories.find? (fun c => c.id == id)).map
    (fun c => ⟨c, j.map (fun k => joined k c.id)⟩)), w)

/-- Modelled from the spec: CategoryStore `instance.update(name, image)`; the fields are
applied in place to the record with the id of the instance, the `id` is never changed,
and no uniqueness constraint is checked by the store. -/
def World.update (inst : Instance) (name : Option String) (image : String) (w : World) :
    Except Failure Instance × World :=
  match requireName name with
  | .error e => (.error e, w)
  | .ok n =>
    let set : Category → Category :=
      fun r => if r.id == inst.row.id then { r with name := n, image := image } else r
    (.ok { inst with row := { inst.row with name := n, image := image } },
     { w with categories := w.categories.map set })

/-- Modelled from the spec: CategoryStore `instance.destroy(permanent)`; the record is
removed and no tombstone is kept. -/
def World.destroy (inst : Instance) (_force : Bool) (w : World) : Except Failure Unit × World :=
  (.ok (), { w with categories := w.categories.filter (fun r => r.id != inst.row.id) })

/-- Modelled from the spec: the collaborators of section 6 over `World`.  The validator and
the image store are not part of the sources and stay parameters: `validate` is the call
`validateCategory`, `upload f imgs` stores `f` in the image store `imgs` and returns the
reference, `joined` gives the association rows. -/
def memEnv (validate : ReqBody → Except Failure (Option ValidationError))
    (upload : Option File → List String → Except Failure String × List String)
    (joined : Join → Nat → List String) : Env World where
  validateCategory := validate
  uploadImage := fun f w => ((upload f w.images).1, { w with images := (upload f w.images).2 })
  findOne := World.findOne
  create := World.create
  findAndCountAll := World.findAndCountAll joined
  findByPk := World.findByPk joined
  update := World.update
  destroy := World.destroy

/-- No two categories of the store share a name. -/
def UniqueNames (w : World) : Prop :=
  (w.categories.map (fun c => c.name)).Nodup

instance (w : World) : Decidable (UniqueNames w) := by
  unfold UniqueNames; infer_instance

/-! ## Sample collaborators

The theorems below hold for every validator and every image store.  The instances here
are the concrete ones the examples are evaluated on. -/

/-- Modelled from the spec: `validateCategory` is declared in `middleware/Validate`, which
is not part of the sources.  The spec fixes that `name` is required and leaves the rest of
the shape to the validator; this one is an object schema with the single key `name`, so it
also refuses a body that carries another field. -/
def validateCategory (body : ReqBody) : Except Failure (Option ValidationError) :=
  match body.name with
  | none => .ok (some ⟨⟨"name is required"⟩, []⟩)
  | some _ =>
    match body.others with
    | [] => .ok none
    | (key, _) :: _ => .ok (some ⟨⟨key ++ " is not allowed"⟩, []⟩)

/-- Modelled from the spec: `uploadImage` is declared in `helpers/upload`, which is not
part of the sources.  It stores the file and returns an opaque reference string; here the
reference is the path of the stored file, and a call without a file throws. -/
def uploadImage (file : Option File) (images : List String) :
    Except Failure String × List String :=
  match file with
  | none => (.error ⟨"no file to upload"⟩, images)
  | some f => (.ok ("/uploads/" ++ f.filename), images ++ ["/uploads/" ++ f.filename])

/-- An image store that is out of space: every upload throws. -/
def uploadFails (_file : Option File) (images : List String) :
    Except Failure String × List String :=
  (.error ⟨"ENOSPC: no space left on device"⟩, images)

/-- A catalogue without types or products. -/
def noJoins (_j : Join) (_id : Nat) : List String := []

/-- The collaborators over the in-memory store with the sample validator and uploader. -/
def sampleEnv : Env World :=
  memEnv validateCategory uploadImage noJoins

/-- The in-memory collaborators with a database that is down: every query of the
`Category` model rejects. -/
def downEnv : Env World :=
  { sampleEnv with
    findOne := fun _ w => (.error ⟨"connect ECONNREFUSED"⟩, w)
    findAndCountAll := fun _ w => (.error ⟨"connect ECONNREFUSED"⟩, w)
    findByPk := fun _ _ w => (.error ⟨"connect ECONNREFUSED"⟩, w) }

/-- A store with the two categories Shoes (id 1) and Bags (id 2). -/
def shop : World :=
  { categories := [⟨1, "Shoes", "/uploads/shoes.png"⟩, ⟨2, "Bags", "/uploads/bags.png"⟩]
    nextId := 3
    images := ["/uploads/shoes.png", "/uploads/bags.png"] }

/-- A request with the body `name`, the image file `filename` and the id `id`. -/
def mkRequest (name filename : String) (id : Nat) : Request :=
  { body := ⟨some name, []⟩, files := some ⟨some ⟨filename⟩⟩, params := ⟨id⟩ }

/-! ## Theorems: responses that hold for every collaborator -/

/-- C3: when `validateCategory` rejects the request body, `addCategory` and
`updateCategory` both respond with status 400 and the message of the first validation
detail as the body, and the state is returned as it was: nothing is uploaded, looked up,
created or updated. -/
theorem validation_error_400 {σ : Type} (env : Env σ) (req : Request) (s : σ)
    (error : ValidationError) (h : env.validateCategory req.body = .ok (some error)) :
    addCategory env req s = (.responded ⟨400, .jsonString error.first.message⟩ [], s) ∧
    updateCategory env req s = (.responded ⟨400, .jsonString error.first.message⟩ [], s) := by
  constructor
  · simp [addCategory, h]
  · simp [updateCategory, h]

/-- C3, at a body without a name sent for the id 1 of the sample shop. -/
theorem validation_error_400_witness :
    addCategory sampleEnv ⟨⟨none, []⟩, none, ⟨1⟩⟩ shop
      = (.responded ⟨400, .jsonString "name is required"⟩ [], shop) ∧
    updateCategory sampleEnv ⟨⟨none, []⟩, none, ⟨1⟩⟩ shop
      = (.responded ⟨400, .jsonString "name is required"⟩ [], shop) :=
  validation_error_400 sampleEnv ⟨⟨none, []⟩, none, ⟨1⟩⟩ shop ⟨⟨"name is required"⟩, []⟩ rfl

/-- C10: `getCategories` responds with status 200 and the fetched result whenever the
fetch returns a result object, whatever it holds (also zero categories), and it responds
with status 404 and `No category found` exactly when the fetch returns null. -/
theorem getCategories_status {σ : Type} (env : Env σ) (req : Request) (s : σ) :
    (∀ categories : CountAll, (env.findAndCountAll .types s).1 = .ok (some categories) →
      (getCategories env req s).1
        = .responded ⟨200, .jsonObject false (.categories categories)⟩ []) ∧
    ((getCategories env req s).1
        = .responded ⟨404, .jsonObject true (.msg "No category found")⟩ [] ↔
      (env.findAndCountAll .types s).1 = .ok none) := by
  rcases hf : env.findAndCountAll .types s with ⟨r, s1⟩
  rcases r with e | (_ | c)
  · simp [getCategories, hf, caught]
  · simp [getCategories, hf]
  · simp [getCategories, hf]

/-- C10, on a store with zero categories: the fetch returns an empty result object and
the response is 200 with it. -/
theorem getCategories_status_witness :
    (getCategories sampleEnv (mkRequest "" "" 0) ⟨[], 1, []⟩).1
      = .responded ⟨200, .jsonObject false (.categories ⟨0, []⟩)⟩ [] :=
  (getCategories_status sampleEnv (mkRequest "" "" 0) ⟨[], 1, []⟩).1 ⟨0, []⟩ rfl

/-- C5 as stated fails: a failure thrown by `uploadImage` is raised before the `try`
block of `addCategory` and of `updateCategory`, so the handler rejects with it and writes
no response at all. -/
theorem upload_failure_escapes :
    addCategory (memEnv validateCategory uploadFails noJoins) (mkRequest "Hats" "hats.png" 1) shop
      = (.rejected ⟨"ENOSPC: no space left on device"⟩, shop) ∧
    updateCategory (memEnv validateCategory uploadFails noJoins) (mkRequest "Hats" "hats.png" 1) shop
      = (.rejected ⟨"ENOSPC: no space left on device"⟩, shop) := by
  constructor <;> rfl

/-- C5, amended: every failure `e` thrown or rejected by a call of the `Category` store is
caught by the operation that made the call, which then responds with status 500 and the
fixed body `Internal server error...`; only `console.error` receives `e.message`.  For
`addCategory` and `updateCategory` the store is reached once validation has passed and
`uploadImage` has returned. -/
theorem store_failure_500 {σ : Type} (env : Env σ) (req : Request) (s : σ) (e : Failure) :
    caught e = .responded ⟨500, .text "Internal server error..."⟩ [e.message] ∧
    ((env.findAndCountAll .types s).1 = .error e → (getCategories env req s).1 = caught e) ∧
    ((env.findByPk req.params.id (some .products) s).1 = .error e →
      (getCategory env req s).1 = caught e) ∧
    ((env.findByPk req.params.id none s).1 = .error e →
      (deleteCategory env req s).1 = caught e) ∧
    (∀ c s1, env.findByPk req.params.id none s = (.ok (some c), s1) →
      (env.destroy c true s1).1 = .error e → (deleteCategory env req s).1 = caught e) ∧
    (∀ fs image s1, env.validateCategory req.body = .ok none → req.files = some fs →
      env.uploadImage fs.image s = (.ok image, s1) →
      ((env.findOne req.body.name s1).1 = .error e → (addCategory env req s).1 = caught e) ∧
      (∀ s2, env.findOne req.body.name s1 = (.ok none, s2) →
        (env.create req.body.name image s2).1 = .error e →
        (addCategory env req s).1 = caught e) ∧
      ((env.findByPk req.params.id none s1).1 = .error e →
        (updateCategory env req s).1 = caught e) ∧
      (∀ c s2, env.findByPk req.params.id none s1 = (.ok (some c), s2) →
        (env.update c req.body.name image s2).1 = .error e →
        (updateCategory env req s).1 = caught e)) := by
  refine ⟨rfl, ?_, ?_, ?_, ?_, ?_⟩
  · intro h
    rcases hf : env.findAndCountAll .types s with ⟨r, s1⟩
    rw [hf] at h
    simp only at h
    subst h
    simp [getCategories, hf]
  · intro h
    rcases hf : env.findByPk req.params.id (some .products) s with ⟨r, s1⟩
    rw [hf] at h
    simp only at h
    subst h
    simp [getCategory, hf]
  · intro h
    rcases hf : env.findByPk req.params.id none s with ⟨r, s1⟩
    rw [hf] at h
    simp only at h
    subst h
    simp [deleteCategory, hf]
  · intro c s1 hf h
    rcases hd : env.destroy c true s1 with ⟨r, s2⟩
    rw [hd] at h
    simp only at h
    subst h
    simp [deleteCategory, hf, hd]
  · intro fs image s1 hv hfs hu
    refine ⟨?_, ?_, ?_, ?_⟩
    · intro h
      rcases hf : env.findOne req.body.name s1 with ⟨r, s2⟩
      rw [hf] at h
      simp only at h
      subst h
      simp [addCategory, hv, hfs, hu, hf]
    · intro s2 hf h
      rcases hc : env.create req.body.name image s2 with ⟨r, s3⟩
      rw [hc] at h
      simp only at h
      subst h
      simp [addCategory, hv, hfs, hu, hf, hc]
    · intro h
      rcases hf : env.findByPk req.params.id none s1 with ⟨r, s2⟩
      rw [hf] at h
      simp only at h
      subst h
      simp [updateCategory, hv, hfs, hu, hf]
    · intro c s2 hf h
      rcases hu2 : env.update c req.body.name image s2 with ⟨r, s3⟩
      rw [hu2] at h
      simp only at h
      subst h
      simp [updateCategory, hv, hfs, hu, hf, hu2]

/-- C5 amended, with the database down: `getCategories` answers 500 with the fixed body,
and the message of the failure only reaches the console. -/
theorem store_failure_500_witness :
    (getCategories downEnv (mkRequest "Hats" "hats.png" 1) shop).1
      = .responded ⟨500, .text "Internal server error..."⟩ ["connect ECONNREFUSED"] :=
  (store_failure_500 downEnv (mkRequest "Hats" "hats.png" 1) shop
    ⟨"connect ECONNREFUSED"⟩).2.1 rfl

/-! ## Theorems: the handlers over the in-memory store -/

/-- A look up by name finds nothing exactly when no category has the name. -/
theorem find_name_none (l : List Category) (n : String) :
    l.find? (fun c => c.name == n) = none ↔ ∀ c ∈ l, c.name ≠ n := by
  simp [List.find?_eq_none]

/-- A look up by id finds nothing exactly when no category has the id. -/
theorem find_id_none (l : List Category) (id : Nat) :
    l.find? (fun c => c.id == id) = none ↔ ∀ c ∈ l, c.id ≠ id := by
  simp [List.find?_eq_none]

/-- C1: on the in-memory store, for every request whose body passes `validateCategory`,
whose `name` matches no category in the store and for whose image file `uploadImage`
returns the reference `ref`, `addCategory` responds with status 200 and the body
`error: false, category`, where the created category has the name of the request and the
image `ref`; it is the one record added to the store. -/
theorem addCategory_creates (validate : ReqBody → Except Failure (Option ValidationError))
    (upload : Option File → List String → Except Failure String × List String)
    (joined : Join → Nat → List String) (req : Request) (w : World)
    (name : String) (fs : Files) (ref : String) (images : List String)
    (hvalid : validate req.body = .ok none)
    (hname : req.body.name = some name)
    (hfresh : ∀ c ∈ w.categories, c.name ≠ name)
    (hfiles : req.files = some fs)
    (hupload : upload fs.image w.images = (.ok ref, images)) :
    addCategory (memEnv validate upload joined) req w
      = (.responded ⟨200, .jsonObject false (.category ⟨⟨w.nextId, name, ref⟩, none⟩)⟩ [],
         { categories := w.categories ++ [⟨w.nextId, name, ref⟩]
           nextId := w.nextId + 1
           images := images }) := by
  have hfind := (find_name_none w.categories name).2 hfresh
  simp [addCategory, memEnv, hvalid, hfiles, hupload, hname, World.findOne, World.create,
    requireName, hfind]

/-- C1, creating Hats in the sample shop. -/
theorem addCategory_creates_witness :
    addCategory sampleEnv (mkRequest "Hats" "hats.png" 0) shop
      = (.responded ⟨200, .jsonObject false
          (.category ⟨⟨3, "Hats", "/uploads/hats.png"⟩, none⟩)⟩ [],
         { categories := shop.categories ++ [⟨3, "Hats", "/uploads/hats.png"⟩]
           nextId := 4
           images := shop.images ++ ["/uploads/hats.png"] }) :=
  addCategory_creates validateCategory uploadImage noJoins (mkRequest "Hats" "hats.png" 0) shop
    "Hats" ⟨some ⟨"hats.png"⟩⟩ "/uploads/hats.png" (shop.images ++ ["/uploads/hats.png"])
    rfl rfl (by decide) rfl rfl

/-- C2 as stated fails: validation runs before the look up by name, so a body that names
the existing category Shoes and carries a field the validator refuses is answered with the
validation message, not with `Category already exist`. -/
theorem existing_name_invalid_body :
    addCategory sampleEnv
        ⟨⟨some "Shoes", [("price", "10")]⟩, some ⟨some ⟨"shoes.png"⟩⟩, ⟨0⟩⟩ shop
      = (.responded ⟨400, .jsonString "price is not allowed"⟩ [], shop) ∧
    (addCategory sampleEnv
        ⟨⟨some "Shoes", [("price", "10")]⟩, some ⟨some ⟨"shoes.png"⟩⟩, ⟨0⟩⟩ shop).1
      ≠ .responded ⟨400, .jsonObject true (.msg "Category already exist")⟩ [] := by
  constructor
  · rfl
  · decide

/-- C2, amended: on the in-memory store, for every request whose body passes
`validateCategory`, for whose image file `uploadImage` returns a reference, and whose
`name` already exists in the store, `addCategory` responds with status 400 and the body
`error: true, msg: Category already exist`, whatever the other fields of the request are,
and the category store is left as it was: no category is created. -/
theorem addCategory_conflict (validate : ReqBody → Except Failure (Option ValidationError))
    (upload : Option File → List String → Except Failure String × List String)
    (joined : Join → Nat → List String) (req : Request) (w : World)
    (name : String) (fs : Files) (ref : String) (images : List String)
    (hvalid : validate req.body = .ok none)
    (hname : req.body.name = some name)
    (hexists : ∃ c ∈ w.categories, c.name = name)
    (hfiles : req.files = some fs)
    (hupload : upload fs.image w.images = (.ok ref, images)) :
    addCategory (memEnv validate upload joined) req w
      = (.responded ⟨400, .jsonObject true (.msg "Category already exist")⟩ [],
         { categories := w.categories, nextId := w.nextId, images := images }) := by
  rcases hfind : w.categories.find? (fun c => c.name == name) with _ | c
  · obtain ⟨c, hc, hcn⟩ := hexists
    exact absurd hcn ((find_name_none w.categories name).1 hfind c hc)
  · simp [addCategory, memEnv, hvalid, hfiles, hupload, hname, World.findOne, requireName,
      hfind, alreadyExist]

/-- C2 amended, adding Shoes a second time to the sample shop. -/
theorem addCategory_conflict_witness :
    addCategory sampleEnv (mkRequest "Shoes" "other.png" 0) shop
      = (.responded ⟨400, .jsonObject true (.msg "Category already exist")⟩ [],
         { categories := shop.categories, nextId := 3
           images := shop.images ++ ["/uploads/other.png"] }) :=
  addCategory_conflict validateCategory uploadImage noJoins (mkRequest "Shoes" "other.png" 0)
    shop "Shoes" ⟨some ⟨"other.png"⟩⟩ "/uploads/other.png"
    (shop.images ++ ["/uploads/other.png"]) rfl rfl (by decide) rfl rfl

/-- C4 as stated fails for `updateCategory`: with the id 9, which matches no category of
the sample shop, a valid request is answered 404 only after its image has been uploaded,
and a request whose body fails validation is answered 400, not 404. -/
theorem update_missing_id_uploads :
    updateCategory sampleEnv (mkRequest "Hats" "hats.png" 9) shop
      = (.responded ⟨404, .jsonObject true (.msg "Category not found")⟩ [],
         { shop with images := shop.images ++ ["/uploads/hats.png"] }) ∧
    (updateCategory sampleEnv (mkRequest "Hats" "hats.png" 9) shop).2.images ≠ shop.images ∧
    updateCategory sampleEnv ⟨⟨none, []⟩, some ⟨some ⟨"hats.png"⟩⟩, ⟨9⟩⟩ shop
      = (.responded ⟨400, .jsonString "name is required"⟩ [], shop) := by
  refine ⟨rfl, ?_, rfl⟩
  decide

/-- C4, amended: on the in-memory store, for every id that matches no category,
`getCategory` and `deleteCategory` respond to every request carrying that id with status
404 and the body `error: true, msg: Category not found`, and change nothing;
`updateCategory` responds so to every such request whose body passes `validateCategory`
and for whose image file `uploadImage` returns a reference, and leaves the category store
unchanged, the image having been handed to `uploadImage` before the look up. -/
theorem missing_id_404 (validate : ReqBody → Except Failure (Option ValidationError))
    (upload : Option File → List String → Except Failure String × List String)
    (joined : Join → Nat → List String) (req : Request) (w : World)
    (hmissing : ∀ c ∈ w.categories, c.id ≠ req.params.id) :
    getCategory (memEnv validate upload joined) req w
      = (.responded ⟨404, .jsonObject true (.msg "Category not found")⟩ [], w) ∧
    deleteCategory (memEnv validate upload joined) req w
      = (.responded ⟨404, .jsonObject true (.msg "Category not found")⟩ [], w) ∧
    (∀ fs ref images, validate req.body = .ok none → req.files = some fs →
      upload fs.image w.images = (.ok ref, images) →
      updateCategory (memEnv validate upload joined) req w
        = (.responded ⟨404, .jsonObject true (.msg "Category not found")⟩ [],
           { categories := w.categories, nextId := w.nextId, images := images })) := by
  have hfind := (find_id_none w.categories req.params.id).2 hmissing
  refine ⟨?_, ?_, ?_⟩
  · simp [getCategory, memEnv, World.findByPk, hfind, notFound]
  · simp [deleteCategory, memEnv, World.findByPk, hfind, notFound]
  · intro fs ref images hvalid hfiles hupload
    simp [updateCategory, memEnv, hvalid, hfiles, hupload, World.findByPk, hfind, notFound]

/-- C4 amended, reading and deleting the id 9 in the sample shop. -/
theorem missing_id_404_witness :
    getCategory sampleEnv (mkRequest "Hats" "hats.png" 9) shop
      = (.responded ⟨404, .jsonObject true (.msg "Category not found")⟩ [], shop) ∧
    deleteCategory sampleEnv (mkRequest "Hats" "hats.png" 9) shop
      = (.responded ⟨404, .jsonObject true (.msg "Category not found")⟩ [], shop) :=
  ⟨(missing_id_404 validateCategory uploadImage noJoins (mkRequest "Hats" "hats.png" 9) shop
      (by decide)).1,
   (missing_id_404 validateCategory uploadImage noJoins (mkRequest "Hats" "hats.png" 9) shop
      (by decide)).2.1⟩

/-- Setting the name and the image of the records with the id `id`. -/
theorem find_id_map_set (l : List Category) (id target : Nat) (n ref : String) :
    (l.map (fun r => if r.id == target then { r with name := n, image := ref } else r)).find?
        (fun c => c.id == id)
      = (l.find? (fun c => c.id == id)).map
          (fun r => if r.id == target then { r with name := n, image := ref } else r) := by
  have hcomp : ((fun c : Category => c.id == id) ∘
      fun r => if r.id == target then { r with name := n, image := ref } else r)
      = fun c => c.id == id := by
    funext r
    by_cases hr : r.id = target <;> simp [hr]
  rw [List.find?_map, hcomp]

/-- A record found by id has that id. -/
theorem find_id_some {l : List Category} {id : Nat} {c : Category}
    (h : l.find? (fun c => c.id == id) = some c) : c.id = id := by
  have := List.find?_some h
  simpa using this

/-- C7: on the in-memory store, if `deleteCategory` responds with status 200, then
`getCategory` for the same id on the resulting store responds with status 404 and the
body `error: true, msg: Category not found`. -/
theorem delete_then_get_404 (validate : ReqBody → Except Failure (Option ValidationError))
    (upload : Option File → List String → Except Failure String × List String)
    (joined : Join → Nat → List String) (req req2 : Request) (w : World)
    (body : ResBody) (console : List String)
    (hid : req2.params.id = req.params.id)
    (hdel : (deleteCategory (memEnv validate upload joined) req w).1
      = .responded ⟨200, body⟩ console) :
    (getCategory (memEnv validate upload joined) req2
        (deleteCategory (memEnv validate upload joined) req w).2).1
      = .responded ⟨404, .jsonObject true (.msg "Category not found")⟩ [] := by
  rcases hfind : w.categories.find? (fun c => c.id == req.params.id) with _ | c
  · simp [deleteCategory, memEnv, World.findByPk, hfind, notFound] at hdel
  · have hc := find_id_some hfind
    have hgone : (w.categories.filter (fun r => r.id != c.id)).find?
        (fun c => c.id == req2.params.id) = none := by
      rw [find_id_none]
      intro r hr
      simp only [List.mem_filter, bne_iff_ne, ne_eq] at hr
      rw [hid, ← hc]
      exact hr.2
    simp [deleteCategory, getCategory, memEnv, World.findByPk, World.destroy, hfind, hgone,
      notFound]

/-- C7, deleting Shoes (id 1) from the sample shop and reading it back. -/
theorem delete_then_get_404_witness :
    (getCategory sampleEnv (mkRequest "" "" 1)
        (deleteCategory sampleEnv (mkRequest "" "" 1) shop).2).1
      = .responded ⟨404, .jsonObject true (.msg "Category not found")⟩ [] :=
  delete_then_get_404 validateCategory uploadImage noJoins (mkRequest "" "" 1)
    (mkRequest "" "" 1) shop (.jsonObject false (.msg "Category deleted successfully")) []
    rfl rfl

/-- C9: on the in-memory store, when `updateCategory` responds with status 200 for the id
of the request, the request has a name and `uploadImage` returned a reference for its
image file; the store holds a record with that id; record by record, every id is kept,
the records with that id have the name of the request and the uploaded reference, and
every other record is unchanged; no record is added or removed. -/
theorem update_frame (validate : ReqBody → Except Failure (Option ValidationError))
    (upload : Option File → List String → Except Failure String × List String)
    (joined : Join → Nat → List String) (req : Request) (w : World)
    (body : ResBody) (console : List String)
    (hok : (updateCategory (memEnv validate upload joined) req w).1
      = .responded ⟨200, body⟩ console) :
    ∃ name fs ref, req.body.name = some name ∧ req.files = some fs ∧
      (upload fs.image w.images).1 = .ok ref ∧
      (∃ c ∈ w.categories, c.id = req.params.id) ∧
      List.Forall₂ (fun old new => new.id = old.id ∧
          (old.id = req.params.id → new.name = name ∧ new.image = ref) ∧
          (old.id ≠ req.params.id → new = old))
        w.categories (updateCategory (memEnv validate upload joined) req w).2.categories ∧
      (updateCategory (memEnv validate upload joined) req w).2.nextId = w.nextId := by
  rcases hv : validate req.body with e | (_ | err)
  · simp [updateCategory, memEnv, hv] at hok
  swap
  · simp [updateCategory, memEnv, hv] at hok
  rcases hfs : req.files with _ | fs
  · simp [updateCategory, memEnv, hv, hfs] at hok
  rcases hu : upload fs.image w.images with ⟨r, images⟩
  rcases r with e | ref
  · simp [updateCategory, memEnv, hv, hfs, hu] at hok
  rcases hfind : w.categories.find? (fun c => c.id == req.params.id) with _ | c
  · simp [updateCategory, memEnv, hv, hfs, hu, World.findByPk, hfind, notFound] at hok
  rcases hn : req.body.name with _ | name
  · simp [updateCategory, memEnv, hv, hfs, hu, World.findByPk, hfind, World.update,
      requireName, hn, caught] at hok
  have hc := find_id_some hfind
  refine ⟨name, fs, ref, rfl, rfl, by rw [hu], ⟨c, List.mem_of_find?_eq_some hfind, hc⟩, ?_, ?_⟩
  · simp only [updateCategory, memEnv, hv, hfs, hu, World.findByPk, hfind, World.update,
      requireName, hn, Option.map_some']
    rw [List.forall₂_map_right_iff, List.forall₂_same]
    intro r _
    by_cases hr : r.id = req.params.id
    · simp [hr, hc]
    · simp [hr, hc]
  · simp [updateCategory, memEnv, hv, hfs, hu, World.findByPk, hfind, World.update,
      requireName, hn]

/-- C9, renaming Bags (id 2) to Totes in the sample shop. -/
theorem update_frame_witness :
    ∃ name fs ref, (mkRequest "Totes" "totes.png" 2).body.name = some name ∧
      (mkRequest "Totes" "totes.png" 2).files = some fs ∧
      (uploadImage fs.image shop.images).1 = .ok ref ∧
      (∃ c ∈ shop.categories, c.id = (mkRequest "Totes" "totes.png" 2).params.id) ∧
      List.Forall₂ (fun old new => new.id = old.id ∧
          (old.id = (mkRequest "Totes" "totes.png" 2).params.id →
            new.name = name ∧ new.image = ref) ∧
          (old.id ≠ (mkRequest "Totes" "totes.png" 2).params.id → new = old))
        shop.categories
        (updateCategory (memEnv validateCategory uploadImage noJoins)
          (mkRequest "Totes" "totes.png" 2) shop).2.categories ∧
      (updateCategory (memEnv validateCategory uploadImage noJoins)
          (mkRequest "Totes" "totes.png" 2) shop).2.nextId = shop.nextId :=
  update_frame validateCategory uploadImage noJoins (mkRequest "Totes" "totes.png" 2) shop
    (.jsonObject false (.updatedCategory ⟨⟨2, "Totes", "/uploads/totes.png"⟩, none⟩)) [] rfl

/-- C8: on the in-memory store, when the second upload of the image file of the request
returns what the first one returned, running `updateCategory` twice with the same request
leaves the category store as one run leaves it. -/
theorem update_idempotent (validate : ReqBody → Except Failure (Option ValidationError))
    (upload : Option File → List String → Except Failure String × List String)
    (joined : Join → Nat → List String) (req : Request) (w : World)
    (hsame : ∀ fs, req.files = some fs →
      (upload fs.image (updateCategory (memEnv validate upload joined) req w).2.images).1
        = (upload fs.image w.images).1) :
    (updateCategory (memEnv validate upload joined) req
        (updateCategory (memEnv validate upload joined) req w).2).2.categories
      = (updateCategory (memEnv validate upload joined) req w).2.categories ∧
    (updateCategory (memEnv validate upload joined) req
        (updateCategory (memEnv validate upload joined) req w).2).2.nextId
      = (updateCategory (memEnv validate upload joined) req w).2.nextId := by
  rcases hv : validate req.body with e | (_ | err)
  · simp [updateCategory, memEnv, hv]
  swap
  · simp [updateCategory, memEnv, hv]
  rcases hfs : req.files with _ | fs
  · simp [updateCategory, memEnv, hv, hfs]
  have h1 := hsame fs hfs
  rcases hu : upload fs.image w.images with ⟨r, images⟩
  rcases r with e | ref
  · have hw : updateCategory (memEnv validate upload joined) req w
        = (.rejected e, { w with images := images }) := by
      simp [updateCategory, memEnv, hv, hfs, hu]
    rw [hw] at h1 ⊢
    rcases hu2 : upload fs.image images with ⟨r2, images2⟩
    simp only [hu2, hu] at h1
    subst h1
    simp [updateCategory, memEnv, hv, hfs, hu2]
  rcases hfind : w.categories.find? (fun c => c.id == req.params.id) with _ | c
  · have hw : updateCategory (memEnv validate upload joined) req w
        = (.responded notFound [], { w with images := images }) := by
      simp [updateCategory, memEnv, hv, hfs, hu, World.findByPk, hfind]
    rw [hw] at h1 ⊢
    rcases hu2 : upload fs.image images with ⟨r2, images2⟩
    simp only [hu2, hu] at h1
    subst h1
    simp [updateCategory, memEnv, hv, hfs, hu2, World.findByPk, hfind]
  rcases hn : req.body.name with _ | name
  · have hw : updateCategory (memEnv validate upload joined) req w
        = (caught ⟨"category name is undefined"⟩, { w with images := images }) := by
      simp [updateCategory, memEnv, hv, hfs, hu, World.findByPk, hfind, World.update,
        requireName, hn]
    rw [hw] at h1 ⊢
    rcases hu2 : upload fs.image images with ⟨r2, images2⟩
    simp only [hu2, hu] at h1
    subst h1
    simp [updateCategory, memEnv, hv, hfs, hu2, World.findByPk, hfind, World.update,
      requireName, hn]
  have hw : (updateCategory (memEnv validate upload joined) req w).2
      = { categories := w.categories.map
            (fun r => if r.id == c.id then { r with name := name, image := ref } else r)
          nextId := w.nextId
          images := images } := by
    simp [updateCategory, memEnv, hv, hfs, hu, World.findByPk, hfind, World.update,
      requireName, hn]
  rw [hw] at h1 ⊢
  rcases hu2 : upload fs.image images with ⟨r2, images2⟩
  simp only [hu2, hu] at h1
  subst h1
  have hc := find_id_some hfind
  have hfind2 := find_id_map_set w.categories req.params.id c.id name ref
  rw [hfind] at hfind2
  have hidem : ((fun r : Category =>
        if r.id == c.id then { r with name := name, image := ref } else r) ∘
      fun r => if r.id == c.id then { r with name := name, image := ref } else r)
      = fun r => if r.id == c.id then { r with name := name, image := ref } else r := by
    funext r
    by_cases hr : r.id = c.id <;> simp [hr]
  simp only [updateCategory, memEnv, hv, hfs, hu2, World.findByPk, hfind2, Option.map_some',
    World.update, requireName, hn, beq_self_eq_true, if_true, List.map_map, hidem, and_self]

/-- C8, renaming Bags (id 2) to Totes twice in the sample shop. -/
theorem update_idempotent_witness :
    (updateCategory sampleEnv (mkRequest "Totes" "totes.png" 2)
        (updateCategory sampleEnv (mkRequest "Totes" "totes.png" 2) shop).2).2.categories
      = [⟨1, "Shoes", "/uploads/shoes.png"⟩, ⟨2, "Totes", "/uploads/totes.png"⟩] ∧
    (updateCategory sampleEnv (mkRequest "Totes" "totes.png" 2) shop).2.categories
      = [⟨1, "Shoes", "/uploads/shoes.png"⟩, ⟨2, "Totes", "/uploads/totes.png"⟩] :=
  ⟨(update_idempotent validateCategory uploadImage noJoins (mkRequest "Totes" "totes.png" 2)
      shop (fun _ h => by cases h; rfl)).1.trans rfl, rfl⟩

/-- The names stay unique when `addCategory` runs on the in-memory store. -/
theorem addCategory_unique (validate : ReqBody → Except Failure (Option ValidationError))
    (upload : Option File → List String → Except Failure String × List String)
    (joined : Join → Nat → List String) (req : Request) (w : World) (h : UniqueNames w) :
    UniqueNames (addCategory (memEnv validate upload joined) req w).2 := by
  rcases hv : validate req.body with e | (_ | err)
  · simpa [addCategory, memEnv, hv] using h
  swap
  · simpa [addCategory, memEnv, hv] using h
  rcases hfs : req.files with _ | fs
  · simpa [addCategory, memEnv, hv, hfs] using h
  rcases hu : upload fs.image w.images with ⟨r, images⟩
  rcases r with e | ref
  · simpa [addCategory, memEnv, hv, hfs, hu, UniqueNames] using h
  rcases hn : req.body.name with _ | name
  · simpa [addCategory, memEnv, hv, hfs, hu, World.findOne, requireName, hn, UniqueNames]
      using h
  rcases hfind : w.categories.find? (fun c => c.name == name) with _ | c
  · have hfresh := (find_name_none w.categories name).1 hfind
    simp only [addCategory, memEnv, hv, hfs, hu, World.findOne, World.create, requireName, hn,
      hfind, Option.map_none', UniqueNames, List.map_append, List.map_cons, List.map_nil]
    rw [List.nodup_append]
    refine ⟨h, List.nodup_singleton _, ?_⟩
    simp only [List.disjoint_singleton, List.mem_map, not_exists, not_and]
    exact fun c hc => hfresh c hc
  · simpa [addCategory, memEnv, hv, hfs, hu, World.findOne, requireName, hn, hfind,
      UniqueNames] using h

/-- The names stay unique when `deleteCategory` runs on the in-memory store. -/
theorem deleteCategory_unique (validate : ReqBody → Except Failure (Option ValidationError))
    (upload : Option File → List String → Except Failure String × List String)
    (joined : Join → Nat → List String) (req : Request) (w : World) (h : UniqueNames w) :
    UniqueNames (deleteCategory (memEnv validate upload joined) req w).2 := by
  rcases hfind : w.categories.find? (fun c => c.id == req.params.id) with _ | c
  · simpa [deleteCategory, memEnv, World.findByPk, hfind] using h
  · simp only [deleteCategory, memEnv, World.findByPk, hfind, Option.map_some', World.destroy,
      UniqueNames]
    exact List.Nodup.sublist (List.Sublist.map _ (List.filter_sublist _)) h

/-- C6 fails on `updateCategory`, which makes no look up by name: in the sample shop,
whose names are unique, renaming Bags (id 2) to Shoes is answered 200 and leaves two
categories named Shoes. -/
theorem update_duplicates_name :
    UniqueNames shop ∧
    updateCategory sampleEnv (mkRequest "Shoes" "bags.png" 2) shop
      = (.responded ⟨200, .jsonObject false
          (.updatedCategory ⟨⟨2, "Shoes", "/uploads/bags.png"⟩, none⟩)⟩ [],
         { categories := [⟨1, "Shoes", "/uploads/shoes.png"⟩, ⟨2, "Shoes", "/uploads/bags.png"⟩]
           nextId := 3
           images := shop.images ++ ["/uploads/bags.png"] }) ∧
    ¬ UniqueNames (updateCategory sampleEnv (mkRequest "Shoes" "bags.png" 2) shop).2 := by
  refine ⟨by decide, rfl, by decide⟩

end CategoryController
